import Mathlib

/-! Shallow embedding of the auctions program (`programs/auctions/src`):
the constants, records and pure functions of `state.rs`, the error set of
`error.rs`, and the instruction handlers of `processor.rs` that the
verified claims are about.  Machine integers are modelled as `Nat`
(u64/u8, kept inside their range by the saturating and checked
operations of the source) and `Int` (i64, likewise clamped); Rust's
panicking i64 division is modelled with `Option`.  Token movements are
recorded as a list of signalled transfers between the named accounts of
each handler. -/

/-- Largest u64 value, `u64::MAX`. -/
def U64MAX : Nat := 2 ^ 64 - 1

/-- Smallest i64 value, `i64::MIN`. -/
def I64MIN : Int := -(2 ^ 63)

/-- Largest i64 value, `i64::MAX`. -/
def I64MAX : Int := 2 ^ 63 - 1

/-- Rust `u64::saturating_add`. -/
def satAddU64 (a b : Nat) : Nat := min (a + b) U64MAX

/-- Rust `u64::saturating_mul`. -/
def satMulU64 (a b : Nat) : Nat := min (a * b) U64MAX

/-- Rust `u64::checked_add`; `none` on overflow. -/
def checkedAddU64 (a b : Nat) : Option Nat :=
  if a + b ≤ U64MAX then some (a + b) else none

/-- Rust `u8::saturating_add`. -/
def satAddU8 (a b : Nat) : Nat := min (a + b) 255

/-- Rust `i64::saturating_add`. -/
def satAddI64 (a b : Int) : Int := max I64MIN (min (a + b) I64MAX)

/-- Rust `i64::saturating_sub`. -/
def satSubI64 (a b : Int) : Int := max I64MIN (min (a - b) I64MAX)

/-- Rust `as u64` wrapping cast out of an i64 value (two's complement). -/
def wrapToU64 (x : Int) : Nat := (x % (2 ^ 64)).toNat

/-- state.rs: 24 hours in seconds for the dealer acceptance window. -/
def ACCEPTANCE_PERIOD : Int := 24 * 60 * 60

/-- state.rs: 5 minutes in seconds for the Penny auction timer. -/
def PENNY_TIMER_DURATION : Int := 5 * 60

/-- state.rs: fee rate in basis points (0.5% = 50). -/
def FEE_RATE : Nat := 50

/-- state.rs: fee denominator (basis points). -/
def FEE_DENOMINATOR : Nat := 10000

/-- state.rs `AuctionStatus`. -/
inductive AuctionStatus
  | Active
  | Expired
  | Finalized
  | Refunded
deriving DecidableEq, Repr

/-- state.rs `TraditionalParams`. -/
structure TraditionalParams where
  start_amount : Nat
  increment : Nat
  reserve_price : Nat
  deadline : Int
  acceptance_deadline : Int
  reserve_met : Bool
deriving DecidableEq, Repr

/-- state.rs `DutchParams`. -/
structure DutchParams where
  start_price : Nat
  decrease_amount : Nat
  interval : Int
  minimum_price : Nat
  deadline : Int
  start_time : Int
deriving DecidableEq, Repr

/-- state.rs `PennyParams`. -/
structure PennyParams where
  increment : Nat
  timer_duration : Int
  current_deadline : Int
  total_paid : Nat
  last_bid_time : Int
deriving DecidableEq, Repr

/-- state.rs `AuctionType`: the embedded type-specific parameter record. -/
inductive AuctionType
  | Traditional : TraditionalParams → AuctionType
  | Dutch : DutchParams → AuctionType
  | Penny : PennyParams → AuctionType
deriving DecidableEq, Repr

/-- state.rs `ProgramState` (PDA bump omitted: address derivation is the
external storage collaborator's concern). -/
structure ProgramState where
  owner : Nat
  paused : Bool
  auction_count : Nat
  is_initialized : Bool
deriving DecidableEq, Repr

/-- state.rs `Auction`.  Identity keys (`Pubkey`) are opaque `Nat`s with
`0` standing for `Pubkey::default()`; the PDA bump fields are omitted. -/
structure Auction where
  auction_id : Nat
  status : AuctionStatus
  dealer : Nat
  current_bidder : Nat
  payment_mint : Nat
  current_bid : Nat
  auction_type : AuctionType
  item_count : Nat
  created_at : Int
  finalized_at : Int
  is_initialized : Bool
deriving DecidableEq, Repr

/-- state.rs `AuctionItem` (vault bump omitted). -/
structure AuctionItem where
  auction_id : Nat
  mint : Nat
  amount : Nat
  is_nft : Bool
  index : Nat
  is_initialized : Bool
deriving DecidableEq, Repr

/-- state.rs `FeeVault` (PDA bump omitted). -/
structure FeeVault where
  payment_mint : Nat
  amount : Nat
  is_initialized : Bool
deriving DecidableEq, Repr

/-- error.rs `AuctionError`. -/
inductive AuctionError
  | OnlyOwner
  | OnlyDealer
  | ContractPaused
  | AuctionNotFound
  | AuctionNotActive
  | AuctionExpired
  | AuctionNotExpired
  | BidTooLow
  | InvalidAuctionType
  | ReservePriceNotMet
  | AcceptancePeriodExpired
  | AcceptancePeriodNotExpired
  | NoItems
  | MaxItemsExceeded
  | InvalidNftMetadata
  | MathOverflow
  | InvalidPDA
  | InvalidPaymentMint
  | PennyTimerNotExpired
  | NoBidder
  | InvalidAccountOwner
  | InvalidInstructionData
  | AccountNotInitialized
  | AccountAlreadyInitialized
deriving DecidableEq, Repr

/-- The `ProgramError` values the processor returns: a program-specific
`AuctionError` wrapped in `Custom`, or a missing required signature. -/
inductive ProgErr
  | Custom : AuctionError → ProgErr
  | MissingRequiredSignature
deriving DecidableEq, Repr

/-- Token accounts named by the processor's transfer instructions. -/
inductive Acct
  | escrow
  | dealerTok
  | winnerTok
  | feeVaultTok
  | bidderTok
  | prevBidderTok
  | buyerTok
  | ownerTok
  | itemVault
deriving DecidableEq, Repr

/-- A signalled SPL-token transfer: source account, destination account,
amount. -/
structure Transfer where
  src : Acct
  dst : Acct
  amount : Nat
deriving DecidableEq, Repr

/-- Result of a handler that may touch the fee vault: the updated auction,
the fee-vault record after the call (`none` when the account data stays
empty), and the signalled transfers in order. -/
structure OpResult where
  auction : Auction
  feeVault : Option FeeVault
  transfers : List Transfer
deriving DecidableEq, Repr

/-- state.rs `calculate_fee`: fee and net amount of a payment. -/
def calculate_fee (amount : Nat) : Nat × Nat :=
  let fee := satMulU64 amount FEE_RATE / FEE_DENOMINATOR
  let net := amount - fee
  (fee, net)

/-- state.rs `calculate_dutch_price`.  `none` models the Rust panic of
`elapsed / params.interval` when `interval = 0` (i64 division by zero);
the overflow panic `i64::MIN / -1` is unreachable because `elapsed ≥ 1`
in the dividing branch.  Rust `/` on i64 truncates toward zero
(`Int.tdiv`), and the `intervals as u64` cast wraps modulo 2^64. -/
def calculate_dutch_price (params : DutchParams) (current_time : Int) : Option Nat :=
  if current_time ≤ params.start_time then
    some params.start_price
  else
    let elapsed := satSubI64 current_time params.start_time
    if params.interval = 0 then
      none
    else
      let intervals := Int.tdiv elapsed params.interval
      let total_decrease := satMulU64 (wrapToU64 intervals) params.decrease_amount
      let current_price := params.start_price - total_decrease
      some (max current_price params.minimum_price)

/-- processor.rs `process_claim_fees`.  Inputs: whether the owner signed,
the program state, the caller's key, and the fee-vault record as
deserialized from its account.  Output: the updated vault and the
signalled transfer of the accumulated amount to the owner. -/
def process_claim_fees (signer : Bool) (st : ProgramState) (caller : Nat)
    (vault : FeeVault) : Except ProgErr (FeeVault × Transfer) :=
  if ¬ signer then .error .MissingRequiredSignature
  else if ¬ st.is_initialized then .error (.Custom .AccountNotInitialized)
  else if st.owner ≠ caller then .error (.Custom .OnlyOwner)
  else if ¬ vault.is_initialized ∨ vault.amount = 0 then .error (.Custom .NoItems)
  else .ok ({ vault with amount := 0 }, ⟨.feeVaultTok, .ownerTok, vault.amount⟩)

/-- processor.rs `process_create_dutch_auction` (the PDA derivations and
account allocations are the external collaborator's concern).  Note: no
validation of `interval`, `decrease_amount` or `minimum_price`. -/
def process_create_dutch_auction (signer : Bool) (st : ProgramState)
    (dealer payment_mint : Nat) (auction_id : Nat) (start_price decrease_amount : Nat)
    (interval : Int) (minimum_price : Nat) (deadline now : Int) :
    Except ProgErr (Auction × ProgramState) :=
  if ¬ signer then .error .MissingRequiredSignature
  else if ¬ st.is_initialized then .error (.Custom .AccountNotInitialized)
  else if st.paused then .error (.Custom .ContractPaused)
  else if deadline ≤ now then .error (.Custom .AuctionExpired)
  else
    .ok ({ auction_id := auction_id,
           status := .Active,
           dealer := dealer,
           current_bidder := 0,
           payment_mint := payment_mint,
           current_bid := 0,
           auction_type := .Dutch
             { start_price := start_price,
               decrease_amount := decrease_amount, interval := interval,
               minimum_price := minimum_price, deadline := deadline,
               start_time := now },
           item_count := 0,
           created_at := now,
           finalized_at := 0,
           is_initialized := true },
         { st with auction_count := satAddU64 st.auction_count 1 })

/-- processor.rs `process_deposit_tokens`: appends an item at the next
index and increments `item_count` (u8 saturating add behind the `< 255`
guard); the token transfer into the item vault is signalled. -/
def process_deposit_tokens (signer : Bool) (a : Auction) (dealer_key mint : Nat)
    (amount : Nat) : Except ProgErr (Auction × AuctionItem × Transfer) :=
  if ¬ signer then .error .MissingRequiredSignature
  else if ¬ a.is_initialized then .error (.Custom .AuctionNotFound)
  else if a.dealer ≠ dealer_key then .error (.Custom .OnlyDealer)
  else if a.status ≠ .Active then .error (.Custom .AuctionNotActive)
  else if 255 ≤ a.item_count then .error (.Custom .MaxItemsExceeded)
  else
    .ok ({ a with item_count := satAddU8 a.item_count 1 },
         { auction_id := a.auction_id, mint := mint, amount := amount,
           is_nft := false, index := a.item_count, is_initialized := true },
         ⟨.dealerTok, .itemVault, amount⟩)

/-- processor.rs `process_bid_traditional`.  Inputs: whether the bidder
signed, the pause flag, the auction, the bidder's key, the bid amount and
`Clock::unix_timestamp`.  Output: the updated auction and the signalled
transfers (refund of the previous bid out of escrow first, then escrow of
the new bid). -/
def process_bid_traditional (signer : Bool) (paused : Bool) (a : Auction)
    (bidder : Nat) (amount : Nat) (now : Int) :
    Except ProgErr (Auction × List Transfer) :=
  if ¬ signer then .error .MissingRequiredSignature
  else if paused then .error (.Custom .ContractPaused)
  else if ¬ a.is_initialized then .error (.Custom .AuctionNotFound)
  else if a.status ≠ .Active then .error (.Custom .AuctionNotActive)
  else
    match a.auction_type with
    | .Traditional params =>
      if params.deadline < now then .error (.Custom .AuctionExpired)
      else
        match (if a.current_bid = 0 then some params.start_amount
               else checkedAddU64 a.current_bid params.increment) with
        | none => .error (.Custom .MathOverflow)
        | some min_bid =>
          if amount < min_bid then .error (.Custom .BidTooLow)
          else
            let refunds : List Transfer :=
              if a.current_bidder ≠ 0 ∧ 0 < a.current_bid then
                [⟨.escrow, .prevBidderTok, a.current_bid⟩]
              else []
            let ts := refunds ++ [⟨.bidderTok, .escrow, amount⟩]
            let a' := { a with
              current_bidder := bidder,
              current_bid := amount,
              auction_type := .Traditional
                { params with reserve_met := decide (params.reserve_price ≤ amount) } }
            .ok (a', ts)
    | _ => .error (.Custom .InvalidAuctionType)

/-- processor.rs `process_buy_dutch`.  The outer `Option` is `none`
exactly when the call into `calculate_dutch_price` panics (i64 division
by zero); otherwise it holds the handler's result.  `vault` is the
fee-vault record as stored (`none` when the account data is empty); the
handler creates it in that case before accumulating. -/
def process_buy_dutch (signer : Bool) (paused : Bool) (a : Auction)
    (vault : Option FeeVault) (buyer : Nat) (max_price : Nat) (now : Int) :
    Option (Except ProgErr OpResult) :=
  if ¬ signer then some (.error .MissingRequiredSignature)
  else if paused then some (.error (.Custom .ContractPaused))
  else if ¬ a.is_initialized then some (.error (.Custom .AuctionNotFound))
  else if a.status ≠ .Active then some (.error (.Custom .AuctionNotActive))
  else if a.item_count = 0 then some (.error (.Custom .NoItems))
  else
    match a.auction_type with
    | .Dutch params =>
      if params.deadline < now then some (.error (.Custom .AuctionExpired))
      else
        match calculate_dutch_price params now with
        | none => none
        | some current_price =>
          if max_price < current_price then some (.error (.Custom .BidTooLow))
          else
            let fee := (calculate_fee current_price).1
            let net := (calculate_fee current_price).2
            let vault1 : FeeVault :=
              match vault with
              | none => { payment_mint := a.payment_mint, amount := 0, is_initialized := true }
              | some v => v
            let ts := [(⟨.buyerTok, .dealerTok, net⟩ : Transfer)] ++
              (if 0 < fee then [(⟨.buyerTok, .feeVaultTok, fee⟩ : Transfer)] else [])
            let vault2 := if 0 < fee then
                { vault1 with amount := satAddU64 vault1.amount fee }
              else vault1
            let a' := { a with
              current_bidder := buyer,
              current_bid := current_price,
              status := .Finalized,
              finalized_at := now }
            some (.ok ⟨a', some vault2, ts⟩)
    | _ => some (.error (.Custom .InvalidAuctionType))

/-- processor.rs `process_bid_penny`.  `vault` is the fee-vault record as
stored (`none` when the account data is empty); the handler creates it in
that case before accumulating. -/
def process_bid_penny (signer : Bool) (paused : Bool) (a : Auction)
    (vault : Option FeeVault) (bidder : Nat) (now : Int) :
    Except ProgErr OpResult :=
  if ¬ signer then .error .MissingRequiredSignature
  else if paused then .error (.Custom .ContractPaused)
  else if ¬ a.is_initialized then .error (.Custom .AuctionNotFound)
  else if a.status ≠ .Active then .error (.Custom .AuctionNotActive)
  else
    match a.auction_type with
    | .Penny params =>
      if 0 < params.current_deadline ∧ params.current_deadline < now then
        .error (.Custom .AuctionExpired)
      else
        let fee := (calculate_fee params.increment).1
        let net := (calculate_fee params.increment).2
        let vault1 : FeeVault :=
          match vault with
          | none => { payment_mint := a.payment_mint, amount := 0, is_initialized := true }
          | some v => v
        let ts := [(⟨.bidderTok, .dealerTok, net⟩ : Transfer)] ++
          (if 0 < fee then [(⟨.bidderTok, .feeVaultTok, fee⟩ : Transfer)] else [])
        let vault2 := if 0 < fee then
            { vault1 with amount := satAddU64 vault1.amount fee }
          else vault1
        let params' := { params with
          total_paid := satAddU64 params.total_paid params.increment,
          last_bid_time := now,
          current_deadline := satAddI64 now params.timer_duration }
        let a' := { a with
          current_bidder := bidder,
          current_bid := params'.total_paid,
          auction_type := .Penny params' }
        .ok ⟨a', some vault2, ts⟩
    | _ => .error (.Custom .InvalidAuctionType)

/-- processor.rs `process_finalize_auction` (permissionless: the caller
account is read but never checked).  `vault` is the fee-vault record as
stored (`none` when the account data is empty); on the reserve-met path
the record is updated only when it is already present. -/
def process_finalize_auction (paused : Bool) (a : Auction)
    (vault : Option FeeVault) (now : Int) : Except ProgErr OpResult :=
  if paused then .error (.Custom .ContractPaused)
  else if ¬ a.is_initialized then .error (.Custom .AuctionNotFound)
  else if a.status ≠ .Active ∧ a.status ≠ .Expired then .error (.Custom .AuctionNotActive)
  else
    match a.auction_type with
    | .Traditional params =>
      if now ≤ params.deadline then .error (.Custom .AuctionNotExpired)
      else if a.current_bidder = 0 then
        .ok ⟨{ a with status := .Refunded, finalized_at := now }, vault, []⟩
      else if params.reserve_met then
        let fee := (calculate_fee a.current_bid).1
        let net := (calculate_fee a.current_bid).2
        let ts := [(⟨.escrow, .dealerTok, net⟩ : Transfer)] ++
          (if 0 < fee then [(⟨.escrow, .feeVaultTok, fee⟩ : Transfer)] else [])
        let vault' := if 0 < fee then
            (match vault with
             | some v => some { v with amount := satAddU64 v.amount fee }
             | none => none)
          else vault
        .ok ⟨{ a with status := .Finalized, finalized_at := now }, vault', ts⟩
      else
        let acceptance_deadline := satAddI64 params.deadline ACCEPTANCE_PERIOD
        if now ≤ acceptance_deadline then
          .ok ⟨{ a with
                 status := .Expired,
                 auction_type := .Traditional
                   { params with acceptance_deadline := acceptance_deadline } },
               vault, []⟩
        else
          .ok ⟨{ a with status := .Refunded, finalized_at := now }, vault,
               [⟨.escrow, .winnerTok, a.current_bid⟩]⟩
    | .Dutch params =>
      if now ≤ params.deadline then .error (.Custom .AuctionNotExpired)
      else .ok ⟨{ a with status := .Refunded, finalized_at := now }, vault, []⟩
    | .Penny params =>
      if params.current_deadline = 0 then .error (.Custom .NoBidder)
      else if now ≤ params.current_deadline then .error (.Custom .PennyTimerNotExpired)
      else .ok ⟨{ a with status := .Finalized, finalized_at := now }, vault, []⟩

/-- processor.rs `process_accept_bid`.  Dealer-only; requires status
`Expired` and an existing bidder; on the fee path the vault record is
updated only when it is already present. -/
def process_accept_bid (signer : Bool) (paused : Bool) (a : Auction)
    (dealer_key : Nat) (vault : Option FeeVault) (now : Int) :
    Except ProgErr OpResult :=
  if ¬ signer then .error .MissingRequiredSignature
  else if paused then .error (.Custom .ContractPaused)
  else if ¬ a.is_initialized then .error (.Custom .AuctionNotFound)
  else if a.dealer ≠ dealer_key then .error (.Custom .OnlyDealer)
  else if a.status ≠ .Expired then .error (.Custom .AuctionNotActive)
  else if a.current_bidder = 0 then .error (.Custom .NoBidder)
  else
    match a.auction_type with
    | .Traditional params =>
      if 0 < params.acceptance_deadline ∧ params.acceptance_deadline < now then
        .error (.Custom .AcceptancePeriodExpired)
      else
        let fee := (calculate_fee a.current_bid).1
        let net := (calculate_fee a.current_bid).2
        let ts := [(⟨.escrow, .dealerTok, net⟩ : Transfer)] ++
          (if 0 < fee then [(⟨.escrow, .feeVaultTok, fee⟩ : Transfer)] else [])
        let vault' := if 0 < fee then
            (match vault with
             | some v => some { v with amount := satAddU64 v.amount fee }
             | none => none)
          else vault
        .ok ⟨{ a with status := .Finalized, finalized_at := now }, vault', ts⟩
    | _ => .error (.Custom .InvalidAuctionType)

/-- Acceptance deadline stored in a Traditional auction (0 for the other
variants, which carry none). -/
def acceptance_deadline_of (a : Auction) : Int :=
  match a.auction_type with
  | .Traditional p => p.acceptance_deadline
  | _ => 0

/-- The Penny parameter record of an auction, when it is a Penny auction. -/
def pennyParamsOf (a : Auction) : Option PennyParams :=
  match a.auction_type with
  | .Penny p => some p
  | _ => none

/-- Whether the embedded parameter record is the Dutch variant. -/
def isDutchA (a : Auction) : Bool :=
  match a.auction_type with
  | .Dutch _ => true
  | _ => false

/-- One application of any modelled auction-mutating handler, relating the
auction record before and after. -/
inductive AuctionStep : Auction → Auction → Prop
  | bidTrad (s pz : Bool) (a : Auction) (b amt : Nat) (now : Int)
      (r : Auction × List Transfer) :
      process_bid_traditional s pz a b amt now = .ok r → AuctionStep a r.1
  | buyDutch (s pz : Bool) (a : Auction) (v : Option FeeVault) (b mp : Nat)
      (now : Int) (r : OpResult) :
      process_buy_dutch s pz a v b mp now = some (.ok r) → AuctionStep a r.auction
  | bidPenny (s pz : Bool) (a : Auction) (v : Option FeeVault) (b : Nat)
      (now : Int) (r : OpResult) :
      process_bid_penny s pz a v b now = .ok r → AuctionStep a r.auction
  | finalize (pz : Bool) (a : Auction) (v : Option FeeVault) (now : Int)
      (r : OpResult) :
      process_finalize_auction pz a v now = .ok r → AuctionStep a r.auction
  | acceptBid (s pz : Bool) (a : Auction) (dk : Nat) (v : Option FeeVault)
      (now : Int) (r : OpResult) :
      process_accept_bid s pz a dk v now = .ok r → AuctionStep a r.auction
  | deposit (s : Bool) (a : Auction) (dk mint amt : Nat)
      (r : Auction × AuctionItem × Transfer) :
      process_deposit_tokens s a dk mint amt = .ok r → AuctionStep a r.1

example : calculate_fee 1000 = (5, 995) := by decide

example : calculate_fee 10000 = (50, 9950) := by decide

example :
    calculate_dutch_price
      { start_price := 1000, decrease_amount := 10, interval := 60,
        minimum_price := 100, deadline := 0, start_time := 0 } 0 = some 1000 := by
  decide

example :
    calculate_dutch_price
      { start_price := 1000, decrease_amount := 10, interval := 60,
        minimum_price := 100, deadline := 0, start_time := 0 } 60 = some 990 := by
  decide

example :
    calculate_dutch_price
      { start_price := 1000, decrease_amount := 10, interval := 60,
        minimum_price := 100, deadline := 0, start_time := 0 } 300 = some 950 := by
  decide

example :
    calculate_dutch_price
      { start_price := 1000, decrease_amount := 10, interval := 60,
        minimum_price := 100, deadline := 0, start_time := 0 } 100000 = some 100 := by
  decide

/-- Numeric value of `U64MAX`. -/
theorem U64MAX_eq : U64MAX = 18446744073709551615 := by norm_num [U64MAX]

/-- Numeric value of `I64MAX`. -/
theorem I64MAX_eq : I64MAX = 9223372036854775807 := by norm_num [I64MAX]

/-- Numeric value of `I64MIN`. -/
theorem I64MIN_eq : I64MIN = -9223372036854775808 := by norm_num [I64MIN]

/-- Unfolded form of `calculate_fee`. -/
theorem calculate_fee_def (amount : Nat) :
    calculate_fee amount =
      (min (amount * 50) U64MAX / 10000,
       amount - min (amount * 50) U64MAX / 10000) := rfl

/-- The fee never exceeds the amount it is computed from. -/
theorem calculate_fee_le (amount : Nat) : (calculate_fee amount).1 ≤ amount := by
  rw [calculate_fee_def]
  rcases le_or_lt (amount * 50) U64MAX with h | h
  · rw [min_eq_left h]
    calc amount * 50 / 10000
        ≤ amount * 10000 / 10000 :=
          Nat.div_le_div_right (Nat.mul_le_mul_left _ (by norm_num))
      _ = amount := Nat.mul_div_cancel _ (by norm_num)
  · rw [min_eq_right h.le]
    rw [U64MAX_eq] at h ⊢
    omega

/-- C5: for every u64 amount, the Fee Calculator's two outputs sum back to
the input: `fee(amount) + net(amount) = amount`. -/
theorem fee_plus_net_eq_amount (amount : Nat) :
    (calculate_fee amount).1 + (calculate_fee amount).2 = amount :=
  Nat.add_sub_cancel' (calculate_fee_le amount)

/-- C4 counterexample: at `amount = u64::MAX` the saturating
multiplication `amount.saturating_mul(50)` clips at `u64::MAX`, so the
returned fee is not `floor(amount * 50 / 10000)`. -/
theorem fee_not_exact_at_large_amount :
    (calculate_fee 18446744073709551615).1 = 1844674407370955 ∧
    (18446744073709551615 * 50 / 10000 : Nat) = 92233720368547758 ∧
    (1844674407370955 : Nat) ≠ 92233720368547758 := by decide

/-- C4 amended: whenever `amount * 50` fits in u64 (all amounts up to
`u64::MAX / 50`), the fee is exactly `floor(amount * 50 / 10000)` with
truncation toward zero, and the saturating arithmetic never wraps: the
fee stays within u64 and the net within the input amount. -/
theorem fee_exact_without_saturation (amount : Nat)
    (h : amount * FEE_RATE ≤ U64MAX) :
    (calculate_fee amount).1 = amount * FEE_RATE / FEE_DENOMINATOR ∧
    (calculate_fee amount).1 ≤ U64MAX ∧
    (calculate_fee amount).2 ≤ amount := by
  simp only [FEE_RATE] at h
  refine ⟨?_, ?_, ?_⟩
  · rw [calculate_fee_def]
    simp only [FEE_RATE, FEE_DENOMINATOR]
    rw [min_eq_left h]
  · rw [calculate_fee_def]
    exact le_trans (Nat.div_le_self _ _) (min_le_right _ _)
  · rw [calculate_fee_def]
    exact Nat.sub_le _ _

/-- C4 witness: the hypothesis and the exactness conclusion at
`amount = 1000`. -/
theorem fee_exact_without_saturation_witness :
    1000 * FEE_RATE ≤ U64MAX ∧
    (calculate_fee 1000).1 = 1000 * FEE_RATE / FEE_DENOMINATOR :=
  ⟨by decide, (fee_exact_without_saturation 1000 (by decide)).1⟩

/-- Dutch parameters with a start price below the floor: the price then
rises from `start_price` to `minimum_price` after the first interval. -/
def dutchBelowFloorParams : DutchParams :=
  { start_price := 0, decrease_amount := 10, interval := 60,
    minimum_price := 100, deadline := 1000000, start_time := 0 }

/-- C3 counterexample: with `start_price < minimum_price` the Dutch price
is strictly below `minimum_price` at `now = start_time` and strictly
increases between `now = 0` and `now = 60`, so neither monotonicity nor
the floor holds for every parameter set. -/
theorem dutch_price_not_monotone_nor_floored :
    calculate_dutch_price dutchBelowFloorParams 0 = some 0 ∧
    calculate_dutch_price dutchBelowFloorParams 60 = some 100 ∧
    (0 : Nat) < 100 := by decide

/-- Saturating i64 subtraction is monotone in its first argument. -/
theorem satSubI64_mono (s t1 t2 : Int) (h : t1 ≤ t2) :
    satSubI64 t1 s ≤ satSubI64 t2 s := by
  unfold satSubI64
  have h1 : t1 - s ≤ t2 - s := by omega
  exact max_le_max le_rfl (min_le_min h1 le_rfl)

/-- Saturating i64 subtraction of a strictly earlier time is at least 1. -/
theorem satSubI64_one_le (s t : Int) (h : s < t) : 1 ≤ satSubI64 t s := by
  unfold satSubI64
  rw [I64MAX_eq, I64MIN_eq]
  omega

/-- Saturating i64 subtraction never exceeds `i64::MAX`. -/
theorem satSubI64_le_I64MAX (s t : Int) : satSubI64 t s ≤ I64MAX := by
  unfold satSubI64
  rw [I64MAX_eq, I64MIN_eq]
  omega

/-- Saturating u64 multiplication is monotone in its first argument. -/
theorem satMulU64_mono_left (a b c : Nat) (h : a ≤ b) :
    satMulU64 a c ≤ satMulU64 b c := by
  unfold satMulU64
  exact min_le_min (Nat.mul_le_mul_right _ h) le_rfl

/-- On a nonnegative i64-ranged dividend and a positive divisor, the
truncating division followed by the wrapping u64 cast is Nat division. -/
theorem wrapToU64_tdiv (e i : Int) (he : 0 ≤ e) (hmax : e ≤ I64MAX)
    (hi : 0 < i) : wrapToU64 (Int.tdiv e i) = e.toNat / i.toNat := by
  have htd : Int.tdiv e i = e / i := by
    rw [Int.tdiv_eq_ediv] <;> omega
  have hq0 : 0 ≤ e / i := Int.ediv_nonneg he hi.le
  have hqlt : e / i < 2 ^ 64 := by
    have h1 : e / i ≤ e := Int.ediv_le_self _ he
    rw [I64MAX_eq] at hmax
    omega
  unfold wrapToU64
  rw [htd, Int.emod_eq_of_lt hq0 hqlt]
  obtain ⟨n, rfl⟩ := Int.eq_ofNat_of_zero_le he
  obtain ⟨m, rfl⟩ := Int.eq_ofNat_of_zero_le hi.le
  rfl

/-- Closed form of the Dutch price in the dividing branch, for a positive
interval: the truncating i64 division and the wrapping cast reduce to Nat
division of the clamped elapsed time. -/
theorem dutch_price_pos_branch (p : DutchParams) (t : Int)
    (ht : p.start_time < t) (hi : 0 < p.interval) :
    calculate_dutch_price p t =
      some (max (p.start_price -
        satMulU64 ((satSubI64 t p.start_time).toNat / p.interval.toNat)
          p.decrease_amount) p.minimum_price) := by
  simp only [calculate_dutch_price]
  rw [if_neg (by omega : ¬ t ≤ p.start_time),
      if_neg (by omega : ¬ p.interval = 0),
      wrapToU64_tdiv _ _
        (le_trans (by norm_num) (satSubI64_one_le _ _ ht))
        (satSubI64_le_I64MAX _ _) hi]

/-- C3 amended: for every Dutch parameter set with a positive `interval`
and `minimum_price ≤ start_price`, the price is monotone non-increasing
in `now` and never drops below `minimum_price`. -/
theorem dutch_price_monotone_and_floored (p : DutchParams)
    (hi : 0 < p.interval) (hm : p.minimum_price ≤ p.start_price) :
    (∀ t1 t2 : Int, t1 ≤ t2 → ∀ v1 v2 : Nat,
       calculate_dutch_price p t1 = some v1 →
       calculate_dutch_price p t2 = some v2 → v2 ≤ v1) ∧
    (∀ (t : Int) (v : Nat), calculate_dutch_price p t = some v →
       p.minimum_price ≤ v) := by
  constructor
  · intro t1 t2 h12 v1 v2 hv1 hv2
    rcases le_or_lt t1 p.start_time with h1 | h1
    · unfold calculate_dutch_price at hv1
      rw [if_pos h1] at hv1
      have e1 : p.start_price = v1 := Option.some.inj hv1
      rcases le_or_lt t2 p.start_time with h2 | h2
      · unfold calculate_dutch_price at hv2
        rw [if_pos h2] at hv2
        have e2 : p.start_price = v2 := Option.some.inj hv2
        omega
      · rw [dutch_price_pos_branch p t2 h2 hi] at hv2
        have e2 := Option.some.inj hv2
        have hle : max (p.start_price -
            satMulU64 ((satSubI64 t2 p.start_time).toNat / p.interval.toNat)
              p.decrease_amount) p.minimum_price ≤ p.start_price :=
          max_le (Nat.sub_le _ _) hm
        omega
    · have h2 : p.start_time < t2 := lt_of_lt_of_le h1 h12
      rw [dutch_price_pos_branch p t1 h1 hi] at hv1
      rw [dutch_price_pos_branch p t2 h2 hi] at hv2
      have e1 := Option.some.inj hv1
      have e2 := Option.some.inj hv2
      have hq : (satSubI64 t1 p.start_time).toNat / p.interval.toNat ≤
          (satSubI64 t2 p.start_time).toNat / p.interval.toNat := by
        apply Nat.div_le_div_right
        have hmono := satSubI64_mono p.start_time t1 t2 h12
        have h0 : (0 : Int) ≤ satSubI64 t1 p.start_time :=
          le_trans (by norm_num) (satSubI64_one_le _ _ h1)
        omega
      have hd := satMulU64_mono_left _ _ p.decrease_amount hq
      rw [← e1, ← e2]
      exact max_le
        (le_trans (Nat.sub_le_sub_left hd _) (le_max_left _ _))
        (le_max_right _ _)
  · intro t v hv
    rcases le_or_lt t p.start_time with h | h
    · unfold calculate_dutch_price at hv
      rw [if_pos h] at hv
      have e : p.start_price = v := Option.some.inj hv
      omega
    · rw [dutch_price_pos_branch p t h hi] at hv
      have e := Option.some.inj hv
      rw [← e]
      exact le_max_right _ _

/-- The spec's example Dutch parameter set. -/
def dutchWitnessParams : DutchParams :=
  { start_price := 1000, decrease_amount := 10, interval := 60,
    minimum_price := 100, deadline := 1000000, start_time := 0 }

/-- C3 witness: the amended monotonicity at the spec's example parameters
between `now = 0` and `now = 60`. -/
theorem dutch_price_monotone_and_floored_witness :
    calculate_dutch_price dutchWitnessParams 0 = some 1000 ∧
    calculate_dutch_price dutchWitnessParams 60 = some 990 ∧
    (990 : Nat) ≤ 1000 :=
  ⟨by decide, by decide,
   (dutch_price_monotone_and_floored dutchWitnessParams (by decide)
     (by decide)).1 0 60 (by decide) 1000 990 (by decide) (by decide)⟩

/-- C7: `process_claim_fees` is owner-only, fails with the program's
`NoItems` error (the error.rs variant the spec calls NoFunds) when the
matching fee vault's accumulated amount is 0, and on success signals a
transfer of the full accumulated amount to the owner and resets the
vault's amount to 0. -/
theorem claim_fees_spec (st : ProgramState) (caller : Nat) (vault : FeeVault)
    (hinit : st.is_initialized = true) :
    (st.owner ≠ caller →
       process_claim_fees true st caller vault = .error (.Custom .OnlyOwner)) ∧
    (st.owner = caller → vault.is_initialized = true → vault.amount = 0 →
       process_claim_fees true st caller vault = .error (.Custom .NoItems)) ∧
    (st.owner = caller → vault.is_initialized = true → 0 < vault.amount →
       process_claim_fees true st caller vault =
         .ok ({ vault with amount := 0 },
              ⟨.feeVaultTok, .ownerTok, vault.amount⟩)) := by
  refine ⟨fun h1 => ?_, fun h1 h2 h3 => ?_, fun h1 h2 h3 => ?_⟩
  · simp [process_claim_fees, hinit, h1]
  · simp [process_claim_fees, hinit, h1, h2, h3]
  · have h4 : vault.amount ≠ 0 := Nat.pos_iff_ne_zero.mp h3
    simp [process_claim_fees, hinit, h1, h2, h4]

/-- A concrete initialized program state. -/
def wkState : ProgramState :=
  { owner := 7, paused := false, auction_count := 0, is_initialized := true }

/-- A concrete fee vault holding 42 accumulated units. -/
def wkVault : FeeVault :=
  { payment_mint := 3, amount := 42, is_initialized := true }

/-- C7 witness: the owner claims 42 accumulated units; the vault is
zeroed and the full amount goes to the owner. -/
theorem claim_fees_spec_witness :
    process_claim_fees true wkState 7 wkVault =
      .ok ({ wkVault with amount := 0 }, ⟨.feeVaultTok, .ownerTok, 42⟩) :=
  (claim_fees_spec wkState 7 wkVault rfl).2.2 rfl rfl (by decide)

/-- C2: on an Active Traditional auction at or before its deadline, a bid
succeeds only when it reaches the required minimum (`start_amount` for
the first bid, `current_bid + increment` afterwards, checked addition);
it fails with `BidTooLow` below the minimum and with `MathOverflow` when
`current_bid + increment` overflows u64. -/
theorem bid_traditional_minimum_rule (a : Auction) (p : TraditionalParams)
    (bidder amount : Nat) (now : Int)
    (hinit : a.is_initialized = true) (hstatus : a.status = .Active)
    (htype : a.auction_type = .Traditional p) (hdl : now ≤ p.deadline) :
    (∀ r, process_bid_traditional true false a bidder amount now = .ok r →
       (if a.current_bid = 0 then p.start_amount
        else a.current_bid + p.increment) ≤ amount) ∧
    (a.current_bid ≠ 0 → U64MAX < a.current_bid + p.increment →
       process_bid_traditional true false a bidder amount now =
         .error (.Custom .MathOverflow)) ∧
    ((a.current_bid = 0 ∨ a.current_bid + p.increment ≤ U64MAX) →
       amount < (if a.current_bid = 0 then p.start_amount
                 else a.current_bid + p.increment) →
       process_bid_traditional true false a bidder amount now =
         .error (.Custom .BidTooLow)) := by
  have hnl : ¬ p.deadline < now := not_lt.mpr hdl
  refine ⟨?_, ?_, ?_⟩
  · intro r hr
    by_cases hcb : a.current_bid = 0
    · simp only [process_bid_traditional, hinit, hstatus, htype, hcb,
        checkedAddU64] at hr
      simp [hnl] at hr
      split at hr
      · simp at hr
      · simp [hcb]
        omega
    · simp only [process_bid_traditional, hinit, hstatus, htype, hcb,
        checkedAddU64] at hr
      simp [hnl, hcb] at hr
      split at hr
      · simp at hr
      · rename_i mb heq
        split at hr
        · simp at hr
        · rename_i hnlt
          rw [if_neg hcb]
          split at heq
          · have hmb := Option.some.inj heq
            omega
          · simp at heq
  · intro h0 hov
    have hle : ¬ a.current_bid + p.increment ≤ U64MAX := not_le.mpr hov
    simp [process_bid_traditional, hinit, hstatus, htype, hnl, h0,
      checkedAddU64, hle]
  · intro hno hlt
    by_cases hcb : a.current_bid = 0
    · have hlt' : amount < p.start_amount := by simpa [hcb] using hlt
      simp [process_bid_traditional, hinit, hstatus, htype, hnl, hcb, hlt']
    · rcases hno with hcb' | hle
      · exact absurd hcb' hcb
      · have hlt' : amount < a.current_bid + p.increment := by
          simpa [hcb] using hlt
        simp [process_bid_traditional, hinit, hstatus, htype, hnl, hcb,
          checkedAddU64, hle, hlt']

/-- Concrete Traditional parameters: first bid 100, increment 10, reserve
150, deadline 1000. -/
def wkTradParams : TraditionalParams :=
  { start_amount := 100, increment := 10, reserve_price := 150,
    deadline := 1000, acceptance_deadline := 0, reserve_met := false }

/-- A concrete Active Traditional auction with no bid yet. -/
def wkTradAuction : Auction :=
  { auction_id := 1, status := .Active, dealer := 5, current_bidder := 0,
    payment_mint := 3, current_bid := 0,
    auction_type := .Traditional wkTradParams, item_count := 1,
    created_at := 0, finalized_at := 0, is_initialized := true }

/-- C2 witness: a first bid of 40 against a start amount of 100 is
rejected with `BidTooLow`. -/
theorem bid_traditional_minimum_rule_witness :
    process_bid_traditional true false wkTradAuction 9 40 500 =
      .error (.Custom .BidTooLow) :=
  (bid_traditional_minimum_rule wkTradAuction wkTradParams 9 40 500 rfl rfl
    rfl (by decide)).2.2 (Or.inl rfl) (by decide)

/-- Status of a successful handler result. -/
def okStatus (e : Except ProgErr OpResult) : Option AuctionStatus :=
  match e with
  | .ok r => some r.auction.status
  | .error _ => none

/-- Stored acceptance deadline of a successful handler result. -/
def okAcceptance (e : Except ProgErr OpResult) : Option Int :=
  match e with
  | .ok r => some (acceptance_deadline_of r.auction)
  | .error _ => none

/-- A Traditional auction whose deadline sits within 24 hours of
`i64::MAX`, holding a bid below the reserve. -/
def satTradAuction : Auction :=
  { auction_id := 2, status := .Active, dealer := 5, current_bidder := 8,
    payment_mint := 3, current_bid := 500,
    auction_type := .Traditional
      { start_amount := 100, increment := 10, reserve_price := 1000,
        deadline := 9223372036854775707, acceptance_deadline := 0,
        reserve_met := false },
    item_count := 1, created_at := 0, finalized_at := 0,
    is_initialized := true }

/-- C1 counterexample: finalizing `satTradAuction` at `now = i64::MAX`
takes the reserve-not-met window branch, but the stored acceptance
deadline is the saturated sum `i64::MAX`, not
`deadline + ACCEPTANCE_PERIOD` as the claim states. -/
theorem finalize_acceptance_deadline_saturates :
    okStatus (process_finalize_auction false satTradAuction none
      9223372036854775807) = some .Expired ∧
    okAcceptance (process_finalize_auction false satTradAuction none
      9223372036854775807) = some 9223372036854775807 ∧
    (9223372036854775807 : Int) ≠ 9223372036854775707 + ACCEPTANCE_PERIOD := by
  decide

/-- C1 amended: finalize on a Traditional auction in status Active or
Expired fails with `AuctionNotExpired` when `now ≤ deadline`; past the
deadline, with no bidder it refunds (→ Refunded, no transfers); with the
reserve met it signals `net(current_bid)` to the dealer and the fee to
the fee vault out of escrow and finalizes; otherwise, while `now` is at
most the saturating sum of `deadline` and `ACCEPTANCE_PERIOD` it stores
that saturated sum as `acceptance_deadline` (equal to `deadline + 24h`
whenever the sum fits i64) and becomes Expired; after that window it
refunds the escrowed `current_bid` to the bidder and becomes Refunded. -/
theorem finalize_traditional_behavior (a : Auction) (p : TraditionalParams)
    (vault : Option FeeVault) (now : Int)
    (hinit : a.is_initialized = true)
    (hstatus : a.status = .Active ∨ a.status = .Expired)
    (htype : a.auction_type = .Traditional p) :
    (now ≤ p.deadline →
       process_finalize_auction false a vault now =
         .error (.Custom .AuctionNotExpired)) ∧
    (p.deadline < now → a.current_bidder = 0 →
       ∃ r, process_finalize_auction false a vault now = .ok r ∧
         r.auction.status = .Refunded ∧ r.transfers = []) ∧
    (p.deadline < now → a.current_bidder ≠ 0 → p.reserve_met = true →
       ∃ r, process_finalize_auction false a vault now = .ok r ∧
         r.auction.status = .Finalized ∧
         r.transfers =
           ⟨.escrow, .dealerTok, (calculate_fee a.current_bid).2⟩ ::
             (if 0 < (calculate_fee a.current_bid).1 then
               [⟨.escrow, .feeVaultTok, (calculate_fee a.current_bid).1⟩]
              else [])) ∧
    (p.deadline < now → a.current_bidder ≠ 0 → p.reserve_met = false →
       now ≤ satAddI64 p.deadline ACCEPTANCE_PERIOD →
       ∃ r, process_finalize_auction false a vault now = .ok r ∧
         r.auction.status = .Expired ∧
         acceptance_deadline_of r.auction =
           satAddI64 p.deadline ACCEPTANCE_PERIOD) ∧
    (p.deadline < now → a.current_bidder ≠ 0 → p.reserve_met = false →
       satAddI64 p.deadline ACCEPTANCE_PERIOD < now →
       ∃ r, process_finalize_auction false a vault now = .ok r ∧
         r.auction.status = .Refunded ∧
         r.transfers = [⟨.escrow, .winnerTok, a.current_bid⟩]) := by
  have hs : ¬ (a.status ≠ AuctionStatus.Active ∧
      a.status ≠ AuctionStatus.Expired) := by
    rcases hstatus with h | h <;> simp [h]
  refine ⟨?_, ?_, ?_, ?_, ?_⟩
  · intro h1
    simp [process_finalize_auction, hinit, hs, htype, h1]
  · intro h1 h2
    have hnl : ¬ now ≤ p.deadline := not_le.mpr h1
    simp only [process_finalize_auction, hinit, hs, htype]
    simp [hnl, h2]
  · intro h1 h2 h3
    have hnl : ¬ now ≤ p.deadline := not_le.mpr h1
    simp only [process_finalize_auction, hinit, hs, htype]
    simp only [hnl, h2, h3]
    simp
  · intro h1 h2 h3 h4
    have hnl : ¬ now ≤ p.deadline := not_le.mpr h1
    simp only [process_finalize_auction, hinit, hs, htype]
    simp only [hnl, h2, h3, h4]
    simp [acceptance_deadline_of, h4]
  · intro h1 h2 h3 h4
    have hnl : ¬ now ≤ p.deadline := not_le.mpr h1
    have hnl2 : ¬ now ≤ satAddI64 p.deadline ACCEPTANCE_PERIOD :=
      not_le.mpr h4
    simp only [process_finalize_auction, hinit, hs, htype]
    simp [hnl, h2, h3, hnl2]

/-- C1 witness: finalizing `wkTradAuction` (deadline 1000) at `now = 500`
fails with `AuctionNotExpired`. -/
theorem finalize_traditional_behavior_witness :
    process_finalize_auction false wkTradAuction none 500 =
      .error (.Custom .AuctionNotExpired) :=
  (finalize_traditional_behavior wkTradAuction wkTradParams none 500 rfl
    (Or.inl rfl) rfl).1 (by decide)

/-- Total paid recorded in a successful Penny-bid result. -/
def okPennyTotal (e : Except ProgErr OpResult) : Option Nat :=
  match e with
  | .ok r => (pennyParamsOf r.auction).map (fun q => q.total_paid)
  | .error _ => none

/-- A Penny auction whose running total already sits at `u64::MAX`, with
the increment also `u64::MAX`. -/
def satPennyAuction : Auction :=
  { auction_id := 4, status := .Active, dealer := 5, current_bidder := 8,
    payment_mint := 3, current_bid := 18446744073709551615,
    auction_type := .Penny
      { increment := 18446744073709551615, timer_duration := 300,
        current_deadline := 100, total_paid := 18446744073709551615,
        last_bid_time := 10 },
    item_count := 1, created_at := 0, finalized_at := 0,
    is_initialized := true }

/-- C6 counterexample: a successful bid on `satPennyAuction` at `now = 50`
leaves `total_paid` at the saturated `u64::MAX` instead of increasing it
by exactly the increment, as the claim states. -/
theorem penny_bid_total_paid_saturates :
    okPennyTotal (process_bid_penny true false satPennyAuction none 8 50) =
      some 18446744073709551615 ∧
    (18446744073709551615 : Nat) ≠
      18446744073709551615 + 18446744073709551615 := by decide

/-- C6 amended: on an Active Penny auction, a bid fails with
`AuctionExpired` when a deadline is set (`current_deadline > 0`) and
`now > current_deadline`; otherwise it succeeds and sets
`current_deadline` to the saturating sum of `now` and `timer_duration`,
`total_paid` to the saturating sum of `total_paid` and `increment`
(exactly `+ increment` whenever that fits u64), `last_bid_time = now`,
`current_bidder` to the bidder, `current_bid` to the new `total_paid`,
and the auction stays Active. -/
theorem bid_penny_behavior (a : Auction) (p : PennyParams)
    (vault : Option FeeVault) (bidder : Nat) (now : Int)
    (hinit : a.is_initialized = true) (hstatus : a.status = .Active)
    (htype : a.auction_type = .Penny p) :
    (0 < p.current_deadline → p.current_deadline < now →
       process_bid_penny true false a vault bidder now =
         .error (.Custom .AuctionExpired)) ∧
    (¬ (0 < p.current_deadline ∧ p.current_deadline < now) →
       ∃ r, process_bid_penny true false a vault bidder now = .ok r ∧
         pennyParamsOf r.auction = some
           { p with
             total_paid := satAddU64 p.total_paid p.increment,
             last_bid_time := now,
             current_deadline := satAddI64 now p.timer_duration } ∧
         r.auction.current_bidder = bidder ∧
         r.auction.current_bid = satAddU64 p.total_paid p.increment ∧
         r.auction.status = .Active) := by
  refine ⟨?_, ?_⟩
  · intro h1 h2
    simp [process_bid_penny, hinit, hstatus, htype, h1, h2]
  · intro hne
    simp [process_bid_penny, hinit, hstatus, htype, hne, pennyParamsOf]

/-- Concrete Penny parameters: increment 1000, 5-minute timer, no bid
placed yet. -/
def wkPennyParams : PennyParams :=
  { increment := 1000, timer_duration := 300, current_deadline := 0,
    total_paid := 0, last_bid_time := 0 }

/-- A concrete Active Penny auction before its first bid. -/
def wkPennyAuction : Auction :=
  { auction_id := 6, status := .Active, dealer := 5, current_bidder := 0,
    payment_mint := 3, current_bid := 0,
    auction_type := .Penny wkPennyParams, item_count := 1,
    created_at := 0, finalized_at := 0, is_initialized := true }

/-- C6 witness: the first bid on `wkPennyAuction` at `now = 50` records a
total of 1000 paid. -/
theorem bid_penny_behavior_witness :
    okPennyTotal (process_bid_penny true false wkPennyAuction none 8 50) =
      some 1000 := by
  obtain ⟨r, hr, hp, h1, h2, h3⟩ :=
    (bid_penny_behavior wkPennyAuction wkPennyParams none 8 50 rfl rfl
      rfl).2 (by decide)
  rw [hr]
  simp only [okPennyTotal, hp]
  decide

/-- The Bool test `isDutchA` holds exactly when the embedded record is the
Dutch variant. -/
theorem isDutchA_iff (a : Auction) :
    isDutchA a = true ↔ ∃ p, a.auction_type = .Dutch p := by
  unfold isDutchA
  cases h : a.auction_type <;> simp

/-- A traditional bid never succeeds on a Dutch auction: the type match
rejects it with `InvalidAuctionType` before any state change. -/
theorem bid_traditional_dutch_err (s pz : Bool) (a : Auction) (b amt : Nat)
    (now : Int) (p : DutchParams) (hty : a.auction_type = .Dutch p)
    (r : Auction × List Transfer) :
    process_bid_traditional s pz a b amt now ≠ .ok r := by
  intro h
  simp only [process_bid_traditional, hty] at h
  repeat' split at h
  all_goals exact Except.noConfusion h

/-- A penny bid never succeeds on a Dutch auction. -/
theorem bid_penny_dutch_err (s pz : Bool) (a : Auction) (v : Option FeeVault)
    (b : Nat) (now : Int) (p : DutchParams)
    (hty : a.auction_type = .Dutch p) (r : OpResult) :
    process_bid_penny s pz a v b now ≠ .ok r := by
  intro h
  simp only [process_bid_penny, hty] at h
  repeat' split at h
  all_goals exact Except.noConfusion h

/-- A successful `buy_dutch` keeps the auction's type record, moves the
status directly to Finalized, and leaves a present fee-vault record. -/
theorem buy_dutch_ok_shape (s pz : Bool) (a : Auction) (v : Option FeeVault)
    (b mp : Nat) (now : Int) (r : OpResult)
    (h : process_buy_dutch s pz a v b mp now = some (.ok r)) :
    r.auction.auction_type = a.auction_type ∧
      r.auction.status = .Finalized ∧ r.feeVault.isSome = true := by
  simp only [process_buy_dutch] at h
  repeat' split at h
  any_goals exact Option.noConfusion h
  any_goals (injection h with h1; exact Except.noConfusion h1)
  all_goals injection h with h1
  all_goals injection h1 with h2
  all_goals (rw [← h2]; exact ⟨rfl, rfl, rfl⟩)

/-- A successful `finalize` of a Dutch auction refunds it, keeping the
type record untouched. -/
theorem finalize_dutch_ok_shape (pz : Bool) (a : Auction)
    (v : Option FeeVault) (now : Int) (r : OpResult) (p : DutchParams)
    (hty : a.auction_type = .Dutch p)
    (h : process_finalize_auction pz a v now = .ok r) :
    r.auction.auction_type = .Dutch p ∧ r.auction.status = .Refunded := by
  simp only [process_finalize_auction, hty] at h
  repeat' split at h
  any_goals exact Except.noConfusion h
  all_goals (injection h with h1; rw [← h1]; exact ⟨rfl, rfl⟩)

/-- `accept_bid` succeeds only on an auction already in status Expired. -/
theorem accept_bid_ok_status (s pz : Bool) (a : Auction) (dk : Nat)
    (v : Option FeeVault) (now : Int) (r : OpResult)
    (h : process_accept_bid s pz a dk v now = .ok r) :
    a.status = .Expired := by
  simp only [process_accept_bid] at h
  repeat' split at h
  any_goals exact Except.noConfusion h
  all_goals exact not_not.mp (by assumption)

/-- A successful deposit changes neither the auction's type record nor
its status. -/
theorem deposit_ok_shape (s : Bool) (a : Auction) (dk mint amt : Nat)
    (r : Auction × AuctionItem × Transfer)
    (h : process_deposit_tokens s a dk mint amt = .ok r) :
    r.1.auction_type = a.auction_type ∧ r.1.status = a.status := by
  simp only [process_deposit_tokens] at h
  repeat' split at h
  any_goals exact Except.noConfusion h
  all_goals (injection h with h1; rw [← h1]; exact ⟨rfl, rfl⟩)

/-- A successful penny bid keeps the Penny type record variant and the
status, and leaves a present fee-vault record. -/
theorem bid_penny_ok_shape (s pz : Bool) (a : Auction) (v : Option FeeVault)
    (b : Nat) (now : Int) (r : OpResult)
    (h : process_bid_penny s pz a v b now = .ok r) :
    r.auction.status = a.status ∧ r.feeVault.isSome = true := by
  simp only [process_bid_penny] at h
  repeat' split at h
  any_goals exact Except.noConfusion h
  all_goals (injection h with h1; rw [← h1]; exact ⟨rfl, rfl⟩)

/-- C8: a Dutch auction is created Active, and no modelled handler moves
an auction whose embedded record is Dutch into the Expired status: every
step out of a non-Expired Dutch auction yields a non-Expired Dutch
auction (finalize past the deadline refunds it directly, and `buy_dutch`
finalizes it directly). -/
theorem dutch_never_expired :
    (∀ (s : Bool) (st : ProgramState) (d pm aid sp da : Nat) (iv : Int)
       (mp : Nat) (dl now : Int) (a : Auction) (st' : ProgramState),
       process_create_dutch_auction s st d pm aid sp da iv mp dl now =
         .ok (a, st') → a.status = .Active ∧ isDutchA a = true) ∧
    (∀ a a' : Auction, AuctionStep a a' → isDutchA a = true →
       a.status ≠ .Expired → isDutchA a' = true ∧ a'.status ≠ .Expired) := by
  constructor
  · intro s st d pm aid sp da iv mp dl now a st' h
    simp only [process_create_dutch_auction] at h
    repeat' split at h
    any_goals exact Except.noConfusion h
    all_goals injection h with h1
    all_goals injection h1 with h2 h3
    all_goals (rw [← h2]; exact ⟨rfl, rfl⟩)
  · intro a a' hstep hd hne
    obtain ⟨p, hty⟩ := (isDutchA_iff a).mp hd
    cases hstep with
    | bidTrad s pz a0 b amt now r h =>
      exact absurd h (bid_traditional_dutch_err s pz a b amt now p hty r)
    | buyDutch s pz a0 v b mp2 now r h =>
      obtain ⟨h1, h2, h3⟩ := buy_dutch_ok_shape s pz a v b mp2 now r h
      refine ⟨by simp [isDutchA, h1, hty], by simp [h2]⟩
    | bidPenny s pz a0 v b now r h =>
      exact absurd h (bid_penny_dutch_err s pz a v b now p hty r)
    | finalize pz a0 v now r h =>
      obtain ⟨h1, h2⟩ := finalize_dutch_ok_shape pz a v now r p hty h
      refine ⟨by simp [isDutchA, h1], by simp [h2]⟩
    | acceptBid s pz a0 dk v now r h =>
      exact absurd (accept_bid_ok_status s pz a dk v now r h) hne
    | deposit s a0 dk mint amt r h =>
      obtain ⟨h1, h2⟩ := deposit_ok_shape s a dk mint amt r h
      refine ⟨by simp [isDutchA, h1, hty], by rw [h2]; exact hne⟩

/-- The program state after the witness Dutch creation. -/
def wkStateAfter : ProgramState :=
  { owner := 7, paused := false, auction_count := 1, is_initialized := true }

/-- The auction record produced by the witness Dutch creation. -/
def wkCreatedDutch : Auction :=
  { auction_id := 11, status := .Active, dealer := 5, current_bidder := 0,
    payment_mint := 3, current_bid := 0,
    auction_type := .Dutch
      { start_price := 1000, decrease_amount := 10, interval := 60,
        minimum_price := 100, deadline := 1000, start_time := 0 },
    item_count := 0, created_at := 0, finalized_at := 0,
    is_initialized := true }

/-- A concrete Active Dutch auction with a deposited item. -/
def wkDutchAuction : Auction :=
  { wkCreatedDutch with auction_id := 14, item_count := 1 }

/-- Result of finalizing `wkDutchAuction` past its deadline. -/
def wkDutchRefunded : OpResult :=
  ⟨{ wkDutchAuction with status := .Refunded, finalized_at := 2000 },
   none, []⟩

/-- C8 witness: the concrete creation lands Active, and the concrete
finalize step out of an Active Dutch auction stays clear of Expired. -/
theorem dutch_never_expired_witness :
    (wkCreatedDutch.status = .Active ∧ isDutchA wkCreatedDutch = true) ∧
    (isDutchA wkDutchRefunded.auction = true ∧
      wkDutchRefunded.auction.status ≠ .Expired) :=
  ⟨dutch_never_expired.1 true wkState 5 3 11 1000 10 60 100 1000 0
      wkCreatedDutch wkStateAfter rfl,
   dutch_never_expired.2 wkDutchAuction wkDutchRefunded.auction
     (AuctionStep.finalize false wkDutchAuction none 2000 wkDutchRefunded
       rfl)
     (by decide) (by decide)⟩

/-- C9: Dutch auction creation performs no validation of `interval`
(zero and negative values pass), and the Dutch price function divides by
`interval` with no zero guard, so a Dutch auction created with
`interval = 0` makes the price computation invoked by `buy_dutch`
undefined (an i64 division-by-zero panic) at any `now > start_time`. -/
theorem dutch_interval_zero_unguarded :
    (∀ (st : ProgramState) (d pm aid sp da mp : Nat) (dl now : Int),
       st.is_initialized = true → st.paused = false → now < dl →
       ∃ st', process_create_dutch_auction true st d pm aid sp da 0 mp dl
           now =
         .ok ({ auction_id := aid, status := .Active, dealer := d,
                current_bidder := 0, payment_mint := pm, current_bid := 0,
                auction_type := .Dutch
                  { start_price := sp, decrease_amount := da,
                    interval := 0, minimum_price := mp, deadline := dl,
                    start_time := now },
                item_count := 0, created_at := now, finalized_at := 0,
                is_initialized := true }, st')) ∧
    (∀ (p : DutchParams) (t : Int), p.interval = 0 → p.start_time < t →
       calculate_dutch_price p t = none) ∧
    (∀ (a : Auction) (v : Option FeeVault) (b mp2 : Nat) (t : Int)
       (p : DutchParams),
       a.is_initialized = true → a.status = .Active → a.item_count ≠ 0 →
       a.auction_type = .Dutch p → p.interval = 0 → p.start_time < t →
       t ≤ p.deadline →
       process_buy_dutch true false a v b mp2 t = none) := by
  refine ⟨?_, ?_, ?_⟩
  · intro st d pm aid sp da mp dl now h1 h2 h3
    refine ⟨{ st with auction_count := satAddU64 st.auction_count 1 }, ?_⟩
    simp [process_create_dutch_auction, h1, h2, not_le.mpr h3]
  · intro p t h0 hlt
    simp [calculate_dutch_price, not_le.mpr hlt, h0]
  · intro a v b mp2 t p h1 h2 h3 h4 h5 h6 h7
    have hpr : calculate_dutch_price p t = none := by
      simp [calculate_dutch_price, not_le.mpr h6, h5]
    simp [process_buy_dutch, h1, h2, h3, h4, not_lt.mpr h7, hpr]

/-- A concrete Dutch auction created with `interval = 0`. -/
def wkDutchZeroAuction : Auction :=
  { auction_id := 12, status := .Active, dealer := 5, current_bidder := 0,
    payment_mint := 3, current_bid := 0,
    auction_type := .Dutch
      { start_price := 1000, decrease_amount := 10, interval := 0,
        minimum_price := 100, deadline := 1000, start_time := 0 },
    item_count := 1, created_at := 0, finalized_at := 0,
    is_initialized := true }

/-- C9 witness: buying from the zero-interval Dutch auction at `now = 50`
hits the division-by-zero panic (modelled as `none`). -/
theorem dutch_interval_zero_unguarded_witness :
    process_buy_dutch true false wkDutchZeroAuction none 8 5000 50 = none :=
  dutch_interval_zero_unguarded.2.2 wkDutchZeroAuction none 8 5000 50
    { start_price := 1000, decrease_amount := 10, interval := 0,
      minimum_price := 100, deadline := 1000, start_time := 0 }
    rfl rfl (by decide) rfl rfl (by decide) (by decide)

/-- C10: in `finalize` of a reserve-met Traditional auction and in
`accept_bid`, the fee-vault record's accumulated amount is increased by
the fee only when the fee is positive and the record already exists
(`Option.map` over the stored record): an absent record is left absent
and unrecorded even though the fee transfer out of escrow is still
signalled — unlike `buy_dutch` and `bid_penny`, whose successful runs
always leave a present fee-vault record, creating it when absent. -/
theorem fee_vault_update_policy :
    (∀ (a : Auction) (p : TraditionalParams) (v : Option FeeVault)
       (now : Int) (r : OpResult),
       a.is_initialized = true →
       (a.status = .Active ∨ a.status = .Expired) →
       a.auction_type = .Traditional p → p.deadline < now →
       a.current_bidder ≠ 0 → p.reserve_met = true →
       process_finalize_auction false a v now = .ok r →
       r.feeVault =
         (if 0 < (calculate_fee a.current_bid).1 then
            Option.map (fun w => { w with
              amount := satAddU64 w.amount (calculate_fee a.current_bid).1 }) v
          else v) ∧
       (0 < (calculate_fee a.current_bid).1 →
         (⟨.escrow, .feeVaultTok, (calculate_fee a.current_bid).1⟩ : Transfer)
           ∈ r.transfers)) ∧
    (∀ (a : Auction) (dk : Nat) (v : Option FeeVault) (now : Int)
       (r : OpResult),
       process_accept_bid true false a dk v now = .ok r →
       r.feeVault =
         (if 0 < (calculate_fee a.current_bid).1 then
            Option.map (fun w => { w with
              amount := satAddU64 w.amount (calculate_fee a.current_bid).1 }) v
          else v) ∧
       (0 < (calculate_fee a.current_bid).1 →
         (⟨.escrow, .feeVaultTok, (calculate_fee a.current_bid).1⟩ : Transfer)
           ∈ r.transfers)) ∧
    (∀ (s pz : Bool) (a : Auction) (v : Option FeeVault) (b mp : Nat)
       (now : Int) (r : OpResult),
       process_buy_dutch s pz a v b mp now = some (.ok r) →
       r.feeVault.isSome = true) ∧
    (∀ (s pz : Bool) (a : Auction) (v : Option FeeVault) (b : Nat)
       (now : Int) (r : OpResult),
       process_bid_penny s pz a v b now = .ok r →
       r.feeVault.isSome = true) := by
  refine ⟨?_, ?_, ?_, ?_⟩
  · intro a p v now r hinit hstatus htype h1 h2 h3 hr
    have hs : ¬ (a.status ≠ AuctionStatus.Active ∧
        a.status ≠ AuctionStatus.Expired) := by
      rcases hstatus with h | h <;> simp [h]
    have hnl : ¬ now ≤ p.deadline := not_le.mpr h1
    simp [process_finalize_auction, hinit, hs, htype, hnl, h2, h3] at hr
    rw [← hr]
    refine ⟨?_, fun hf => ?_⟩
    · by_cases hf : 0 < (calculate_fee a.current_bid).1
      · simp only [if_pos hf]
        cases v <;> rfl
      · simp only [if_neg hf]
    · simp [hf]
  · intro a dk v now r hr
    simp only [process_accept_bid] at hr
    repeat' split at hr
    any_goals exact Except.noConfusion hr
    all_goals injection hr with h1
    all_goals rw [← h1]
    all_goals refine ⟨?_, fun hf => ?_⟩
    all_goals simp_all
  · intro s pz a v b mp now r hr
    exact (buy_dutch_ok_shape s pz a v b mp now r hr).2.2
  · intro s pz a v b now r hr
    exact (bid_penny_ok_shape s pz a v b now r hr).2

/-- A Traditional auction with its reserve met (bid 1000 ≥ reserve 500). -/
def wkTradMetAuction : Auction :=
  { auction_id := 13, status := .Active, dealer := 5, current_bidder := 8,
    payment_mint := 3, current_bid := 1000,
    auction_type := .Traditional
      { start_amount := 100, increment := 10, reserve_price := 500,
        deadline := 1000, acceptance_deadline := 0, reserve_met := true },
    item_count := 1, created_at := 0, finalized_at := 0,
    is_initialized := true }

/-- Result of finalizing `wkTradMetAuction` at `now = 2000` with no
fee-vault record present. -/
def wkTradMetRes : OpResult :=
  ⟨{ wkTradMetAuction with status := .Finalized, finalized_at := 2000 },
   none,
   [⟨.escrow, .dealerTok, 995⟩, ⟨.escrow, .feeVaultTok, 5⟩]⟩

/-- C10 witness: finalizing the reserve-met auction with the fee vault
absent leaves the record absent while the fee transfer of 5 is still
signalled. -/
theorem fee_vault_update_policy_witness :
    wkTradMetRes.feeVault =
      (if 0 < (calculate_fee 1000).1 then
        Option.map (fun w => { w with
          amount := satAddU64 w.amount (calculate_fee 1000).1 })
          (none : Option FeeVault)
       else none) ∧
    ((⟨.escrow, .feeVaultTok, (calculate_fee 1000).1⟩ : Transfer)
       ∈ wkTradMetRes.transfers) := by
  have h := fee_vault_update_policy.1 wkTradMetAuction
    { start_amount := 100, increment := 10, reserve_price := 500,
      deadline := 1000, acceptance_deadline := 0, reserve_met := true }
    none 2000 wkTradMetRes rfl (Or.inl rfl) rfl (by decide) (by decide) rfl
    rfl
  exact ⟨h.1, h.2 (by decide)⟩
